import Mathlib

/-!
Verification development for the libcmdapp option registry and
argument-scanning state machine (`src/app.c`).

The embedding models C strings as lists of byte values (`List Nat`), with
the convention that a read past the end of a buffer yields the NUL
terminator `0`.  The process argument vector `argv` is a list of such
buffers; a C `char*` pointing into `argv` storage is modelled as a pair
`(buffer index, offset)`.  The scanner `cmdapp_run` is a structurally
recursive transcription of the C `for` loop over `argv`, fuelled by
`argv.length + 1` (the loop advances its index by at least one per
iteration, so this fuel is never exhausted before the index passes
`argc`).
-/

set_option autoImplicit false

namespace Cmdapp

/-- Byte value of the character `-`. -/
def dash : Nat := 45

/-- Byte value of the character `=`. -/
def eqByte : Nat := 61

/-- Convert a Lean string literal to its list of byte values (for writing
concrete tokens such as `--help`). -/
def str (s : String) : List Nat := s.data.map Char.toNat

/-- Modelled from the spec: the header `app.h` declaring the option flag
constants is not among the sources; per §3/§9 of the spec, `takesArgument`
and `seen` are bit flags tested by membership, so `CMDOPT_TAKESARG` is
modelled as a fixed nonzero bit. -/
def CMDOPT_TAKESARG : Nat := 1

/-- Modelled from the spec: second runtime bit flag, recording that an
option has been seen during a scan (distinct nonzero bit). -/
def CMDOPT_EXISTS : Nat := 2

/-- Modelled from the spec: the header `app.h` declaring `cmdapp_mode_t` is
not among the sources; per §9 the mode is a two-variant enumeration whose
values the source combines with bitwise OR (`app->_mode |
CMDAPP_MODE_SHORTARG`), so the enumerators are modelled as distinct
nonzero flag-like values. -/
def CMDAPP_MODE_SHORTARG : Nat := 1

/-- Modelled from the spec: the multi-flag enumerator of `cmdapp_mode_t`. -/
def CMDAPP_MODE_MULTIFLAG : Nat := 2

/-- Read a byte of a C string buffer: positions at or past the end of the
stored bytes read as the NUL terminator `0`. -/
def cread (b : List Nat) (i : Nat) : Nat := b.getD i 0

/-- The C string starting at offset `i` of buffer `b`: the bytes up to (not
including) the first NUL. -/
def cstring (b : List Nat) (i : Nat) : List Nat := (b.drop i).takeWhile (fun c => c ≠ 0)

/-- Auxiliary recursion for `strchrIdx`: scan for `=` stopping at NUL,
carrying the current index. -/
def strchrAux : List Nat → Nat → Option Nat
  | [], _ => none
  | c :: rest, k => if c = 0 then none else if c = eqByte then some k else strchrAux rest (k + 1)

/-- Index of the first `=` in the C string stored in buffer `b`
(`strchr(current, '=')` in the source), or `none`. -/
def strchrIdx (b : List Nat) : Option Nat := strchrAux b 0

/-- `cmdopt_t`: a registered option.  `value` is a pointer into `argv`
storage (buffer index, offset) or NULL. -/
structure Cmdopt where
  shorto : Nat
  longo : Option (List Nat)
  flags : Nat
  value : Option (Nat × Nat)
deriving Repr, DecidableEq, Inhabited

/-- `cmdarg_internal_t`: registry entry owning the option pointer plus the
help description and the NULL-terminated conflict list (conflicts are
modelled as registry indices; the scanner never reads them). -/
structure CmdargInternal where
  result : Cmdopt
  description : List Nat
  conflicts : List Nat
deriving Repr, DecidableEq, Inhabited

/-- `cmdapp_t`: the application state holding `argv`, the mode and the
registry (`_start`/`_length`). -/
structure AppSt where
  argv : List (List Nat)
  mode : Nat
  opts : List CmdargInternal
deriving Repr, DecidableEq, Inhabited

/-- `cmdapp_init`: empty registry with the given argument vector and mode. -/
def cmdapp_init (argv : List (List Nat)) (mode : Nat) : AppSt :=
  { argv := argv, mode := mode, opts := [] }

/-- `cmdapp_set`: register one option (appended at the end of the
registry), with `value` initialized to NULL. -/
def cmdapp_set (app : AppSt) (shorto : Nat) (longo : Option (List Nat)) (flags : Nat)
    (conflicts : List Nat) (description : List Nat) : AppSt :=
  { app with
      opts := app.opts ++
        [{ result := { shorto := shorto, longo := longo, flags := flags, value := none },
           description := description, conflicts := conflicts }] }

/-- `cmdapp_search` with `longo == NULL`: index of the first registry entry
whose short name matches. -/
def cmdapp_search_short : List CmdargInternal → Nat → Option Nat
  | [], _ => none
  | a :: rest, c =>
    if a.result.shorto = c then some 0 else (cmdapp_search_short rest c).map (· + 1)

/-- `cmdapp_search` with a long name: index of the first registry entry
whose `longo` compares `strcmp`-equal.  (In C, an entry whose `longo` is
NULL would make `strcmp` crash; such an entry is modelled as never
matching, and no theorem below exercises that case.) -/
def cmdapp_search_long : List CmdargInternal → List Nat → Option Nat
  | [], _ => none
  | a :: rest, nm =>
    if a.result.longo = some nm then some 0 else (cmdapp_search_long rest nm).map (· + 1)

/-- Update the `cmdopt_t` of the registry entry at a given index. -/
def updRes : List CmdargInternal → Nat → (Cmdopt → Cmdopt) → List CmdargInternal
  | [], _, _ => []
  | a :: rest, 0, f => { a with result := f a.result } :: rest
  | a :: rest, n + 1, f => a :: updRes rest n f

/-- The option stored at a registry index (used only at indices returned by
a successful search). -/
def getOpt (opts : List CmdargInternal) (idx : Nat) : Cmdopt :=
  (opts.getD idx default).result

/-- Scan error kinds, carrying the token text printed by the source's
`eprintf` diagnostics. -/
inductive ScanError
  | unrecognizedOption (tok : List Nat)
  | missingArgument (tok : List Nat)
  | unexpectedArgument (tok : List Nat)
deriving Repr, DecidableEq

/-- Outcome of `cmdapp_run`: the help and version short-circuits both
return `EXIT_SUCCESS` in C; they are distinguished here so that theorems
can talk about which renderer was triggered. -/
inductive Outcome
  | exitSuccess
  | helpShortCircuit
  | versionShortCircuit
  | failure (e : ScanError)
deriving Repr, DecidableEq

/-- Whether an outcome corresponds to the C return value `EXIT_SUCCESS`. -/
def Outcome.isSuccess : Outcome → Bool
  | .failure _ => false
  | _ => true

/-- Final state of a `cmdapp_run` call: the (possibly mutated) argument
vector, the registry, the positional list `_args` (as indices into
`argv`, since C appends the `char*` `argv[i]` itself) and the outcome. -/
structure RunRes where
  argv : List (List Nat)
  opts : List CmdargInternal
  args : List Nat
  outcome : Outcome
deriving Repr, DecidableEq

/-- Scanner loop state: mutated `argv`, registry, positional list,
`only_args` flag and current index `i`. -/
structure ScanSt where
  argv : List (List Nat)
  opts : List CmdargInternal
  args : List Nat
  onlyArgs : Bool
  i : Nat
deriving Repr, DecidableEq

/-- Result of processing one token: either continue the loop in a new
state, or halt with a final result (error or help/version short-circuit). -/
inductive StepRes
  | cont (st : ScanSt)
  | halt (r : RunRes)
deriving Repr, DecidableEq

/-- `IS_END_OF_FLAGS`: the token is exactly `--`. -/
def isEndOfFlags (b : List Nat) : Bool :=
  cread b 0 == dash && cread b 1 == dash && cread b 2 == 0

/-- `IS_LONG_FLAG`: the token starts with `--`. -/
def isLongFlag (b : List Nat) : Bool :=
  cread b 0 == dash && cread b 1 == dash

/-- `IS_SHORT_FLAG`: the token starts with `-`. -/
def isShortFlag (b : List Nat) : Bool :=
  cread b 0 == dash

/-- `next && next[0] != '-'`: the following token exists and does not look
like a flag. -/
def nextNonFlag : Option (List Nat) → Bool
  | some nb => cread nb 0 != dash
  | none => false

/-- Record a bound value and mark the option seen, in source order: first
`result->value = arg`, then `result->flags |= CMDOPT_EXISTS`. -/
def bindOpts (opts : List CmdargInternal) (idx : Nat) (p : Nat × Nat) : List CmdargInternal :=
  updRes (updRes opts idx (fun o => { o with value := some p })) idx
    (fun o => { o with flags := o.flags ||| CMDOPT_EXISTS })

/-- Mark the option at `idx` seen (`result->flags |= CMDOPT_EXISTS`). -/
def markExists (opts : List CmdargInternal) (idx : Nat) : List CmdargInternal :=
  updRes opts idx (fun o => { o with flags := o.flags ||| CMDOPT_EXISTS })

/-- Long-flag handling after the `=` split: `argp` is the pointer to the
inline value (after the overwritten `=`) or NULL; the current token buffer
has already been truncated in `st.argv`. -/
def handleLong2 (st : ScanSt) (argp : Option (Nat × Nat)) : StepRes :=
  match cmdapp_search_long st.opts (cstring (st.argv.getD st.i []) 2) with
  | some idx =>
    if (getOpt st.opts idx).flags ||| CMDOPT_TAKESARG ≠ 0 then
      match argp with
      | none =>
        .halt ⟨st.argv, st.opts, st.args,
          .failure (.missingArgument (cstring (st.argv.getD st.i []) 0))⟩
      | some p =>
        .cont ⟨st.argv, bindOpts st.opts idx p, st.args, st.onlyArgs, st.i + 1⟩
    else
      match argp with
      | some _ =>
        .halt ⟨st.argv, st.opts, st.args,
          .failure (.unexpectedArgument (cstring (st.argv.getD st.i []) 0))⟩
      | none =>
        .cont ⟨st.argv, markExists st.opts idx, st.args, st.onlyArgs, st.i + 1⟩
  | none =>
    if cstring (st.argv.getD st.i []) 0 = str ("--help") then
      .halt ⟨st.argv, st.opts, st.args, .helpShortCircuit⟩
    else if cstring (st.argv.getD st.i []) 0 = str ("--version") then
      .halt ⟨st.argv, st.opts, st.args, .versionShortCircuit⟩
    else
      .halt ⟨st.argv, st.opts, st.args,
        .failure (.unrecognizedOption (cstring (st.argv.getD st.i []) 0))⟩

/-- Long-flag handling: find the first `=` (before the NUL), overwrite it
in place with a NUL (`*arg = 0`) and remember the pointer one past it,
then resolve the long name. -/
def handleLong (st : ScanSt) : StepRes :=
  match strchrIdx (st.argv.getD st.i []) with
  | some k =>
    handleLong2
      { st with argv := st.argv.set st.i ((st.argv.getD st.i []).set k 0) }
      (some (st.i, k + 1))
  | none => handleLong2 st none

/-- Short-flag handling in `CMDAPP_MODE_SHORTARG` (clustered) mode,
transcribing lines 218–238 of `app.c`. -/
def handleShortarg (st : ScanSt) : StepRes :=
  match cmdapp_search_short st.opts (cread (st.argv.getD st.i []) 1) with
  | none =>
    .halt ⟨st.argv, st.opts, st.args,
      .failure (.unrecognizedOption [dash, cread (st.argv.getD st.i []) 1])⟩
  | some idx =>
    let opts1 := updRes st.opts idx (fun o => { o with value := none })
    if (getOpt opts1 idx).flags ||| CMDOPT_TAKESARG ≠ 0 then
      let opts2 := updRes opts1 idx (fun o => { o with value := some (st.i, 2) })
      if nextNonFlag (st.argv[st.i + 1]?) then
        .cont ⟨st.argv, bindOpts opts2 idx (st.i + 1, 0), st.args, st.onlyArgs, st.i + 2⟩
      else
        .halt ⟨st.argv, opts2, st.args,
          .failure (.missingArgument [dash, cread (st.argv.getD st.i []) 1])⟩
    else
      if cread (st.argv.getD st.i []) 2 ≠ 0 ∨ nextNonFlag (st.argv[st.i + 1]?) = true then
        .halt ⟨st.argv, opts1, st.args,
          .failure (.unexpectedArgument [dash, cread (st.argv.getD st.i []) 1])⟩
      else
        .cont ⟨st.argv, markExists opts1 idx, st.args, st.onlyArgs, st.i + 1⟩

/-- The `for (size_t j = 1; current[j]; j++)` loop of multi-flag mode
(lines 240–257 of `app.c`).  `iTok` is the index of the current token
(the C variable `i` as it was when `current` and `next` were computed;
the loop's own `i++` only accumulates in `extra`).  Returns the updated
registry and the number of extra tokens consumed, or the first error.
Fuel is structural; callers pass `current.length`, which bounds the
number of iterations since the loop stops at the NUL. -/
def multiflagLoop (fuelJ : Nat) (current : List Nat) (next : Option (List Nat)) (iTok : Nat)
    (opts : List CmdargInternal) (j : Nat) (extra : Nat) :
    (List CmdargInternal × Nat) ⊕ (List CmdargInternal × ScanError) :=
  match fuelJ with
  | 0 => Sum.inl (opts, extra)
  | f + 1 =>
    if cread current j = 0 then Sum.inl (opts, extra)
    else
      match cmdapp_search_short opts (cread current 1) with
      | none => Sum.inr (opts, .unrecognizedOption [dash, cread current 1])
      | some idx =>
        let opts1 := updRes opts idx (fun o => { o with value := some (iTok, 2) })
        if cread current 4 = 0 then
          if nextNonFlag next then
            multiflagLoop f current next iTok
              (updRes opts1 idx (fun o => { o with value := some (iTok + 1, 0) }))
              (j + 1) (extra + 1)
          else Sum.inr (opts1, .missingArgument [dash, cread current 1])
        else multiflagLoop f current next iTok opts1 (j + 1) extra

/-- Short-flag handling in multi-flag mode: run the cluster loop, then
either continue past the token (plus any extra tokens the loop consumed)
or halt with its first error. -/
def handleMultiflag (st : ScanSt) : StepRes :=
  match multiflagLoop (st.argv.getD st.i []).length (st.argv.getD st.i [])
      (st.argv[st.i + 1]?) st.i st.opts 1 0 with
  | Sum.inl (opts2, extra) => .cont ⟨st.argv, opts2, st.args, st.onlyArgs, st.i + 1 + extra⟩
  | Sum.inr (opts2, e) => .halt ⟨st.argv, opts2, st.args, .failure e⟩

/-- Classify and process the token at index `st.i` (the body of the
scanner's `for` loop), assuming `st.i < st.argv.length`. -/
def stepToken (mode : Nat) (st : ScanSt) : StepRes :=
  if st.onlyArgs then .cont ⟨st.argv, st.opts, st.args ++ [st.i], true, st.i + 1⟩
  else if isEndOfFlags (st.argv.getD st.i []) then
    .cont ⟨st.argv, st.opts, st.args, true, st.i + 1⟩
  else if isLongFlag (st.argv.getD st.i []) then handleLong st
  else if isShortFlag (st.argv.getD st.i []) then
    if mode ||| CMDAPP_MODE_SHORTARG ≠ 0 then handleShortarg st else handleMultiflag st
  else .cont ⟨st.argv, st.opts, st.args ++ [st.i], st.onlyArgs, st.i + 1⟩

/-- The scanner loop of `cmdapp_run`: process tokens from index `st.i`
until `argc` is reached or a halt occurs.  `fuel` is a structural bound on
the number of iterations; every continuation advances `i` by at least one,
so `argv.length + 1` fuel always suffices. -/
def runFrom (mode : Nat) (fuel : Nat) (st : ScanSt) : RunRes :=
  match fuel with
  | 0 => ⟨st.argv, st.opts, st.args, .exitSuccess⟩
  | f + 1 =>
    if st.i < st.argv.length then
      match stepToken mode st with
      | .cont st2 => runFrom mode f st2
      | .halt r => r
    else ⟨st.argv, st.opts, st.args, .exitSuccess⟩

/-- `cmdapp_run`: reset the positional list and scan the whole argument
vector from index 0 (the C loop starts at `i = 0`). -/
def cmdapp_run (app : AppSt) : RunRes :=
  runFrom app.mode (app.argv.length + 1) ⟨app.argv, app.opts, [], false, 0⟩

/-- `cmdapp_getargs`: after any `cmdapp_run` call the `_args.contents`
buffer is allocated (the run allocates it at entry), so the accumulated
positional list is returned even when the run failed. -/
def cmdapp_getargs (r : RunRes) : Option (List Nat) := some r.args

/-- Render the positional list of a run as the C strings it points to. -/
def argsStrings (r : RunRes) : List (List Nat) :=
  r.args.map (fun k => cstring (r.argv.getD k []) 0)

/-- Whether the registry entry at index `k` is marked seen
(`CMDOPT_EXISTS` is set in its flags). -/
def optSeenAt (opts : List CmdargInternal) (k : Nat) : Bool :=
  match opts.get? k with
  | some o => o.result.flags &&& CMDOPT_EXISTS != 0
  | none => false

/-- The value pointer of the registry entry at index `k`. -/
def optValueAt (opts : List CmdargInternal) (k : Nat) : Option (Nat × Nat) :=
  match opts.get? k with
  | some o => o.result.value
  | none => none

/-- Read the C string a bound value pointer refers to, within a run's
final argument vector. -/
def readValue (argv : List (List Nat)) : Option (Nat × Nat) → Option (List Nat)
  | some (b, off) => some (cstring (argv.getD b []) off)
  | none => none

/-- The list of indices `[i, i+1, ..., i+n-1]`. -/
def idxFrom (i : Nat) : Nat → List Nat
  | 0 => []
  | n + 1 => i :: idxFrom (i + 1) n

/-- Registry entry for a boolean option `-v`/`--verbose` (used by concrete
scenarios below). -/
def verboseEntry : CmdargInternal :=
  { result := { shorto := 118, longo := some (str ("verbose")), flags := 0, value := none },
    description := [], conflicts := [] }

/-- Registry entry for an argument-taking option `-o`/`--out`. -/
def outEntry : CmdargInternal :=
  { result := { shorto := 111, longo := some (str ("out")), flags := CMDOPT_TAKESARG,
                value := none },
    description := [], conflicts := [] }

/-- Registry entry for a boolean short option `-a`. -/
def aEntry : CmdargInternal :=
  { result := { shorto := 97, longo := none, flags := 0, value := none },
    description := [], conflicts := [] }

/-- Registry entry for a boolean short option `-b`. -/
def bEntry : CmdargInternal :=
  { result := { shorto := 98, longo := none, flags := 0, value := none },
    description := [], conflicts := [] }

/-! Bitwise facts about the modelled flag constants: because the source
tests flag membership with `|` instead of `&`, the tested expressions are
never zero. -/

theorem or_takesarg_ne_zero (fl : Nat) : fl ||| CMDOPT_TAKESARG ≠ 0 := by
  intro h
  have h0 : (fl ||| CMDOPT_TAKESARG).testBit 0 = true := by
    simp [CMDOPT_TAKESARG, Nat.testBit_or]
  rw [h] at h0
  simp at h0

theorem or_shortarg_ne_zero (m : Nat) : m ||| CMDAPP_MODE_SHORTARG ≠ 0 := by
  intro h
  have h0 : (m ||| CMDAPP_MODE_SHORTARG).testBit 0 = true := by
    simp [CMDAPP_MODE_SHORTARG, Nat.testBit_or]
  rw [h] at h0
  simp at h0

theorem or_exists_and_ne_zero (fl : Nat) : (fl ||| CMDOPT_EXISTS) &&& CMDOPT_EXISTS ≠ 0 := by
  intro h
  have h0 : ((fl ||| CMDOPT_EXISTS) &&& CMDOPT_EXISTS).testBit 1 = true := by
    simp [CMDOPT_EXISTS, Nat.testBit_and, Nat.testBit_or]
    exact ⟨Or.inr (by decide), by decide⟩
  rw [h] at h0
  simp at h0

/-- C1: the claim states that after registering `('v', "verbose",
takesArgument=false)`, scanning `["-v"]` and scanning `["--verbose"]` both
succeed with the option seen and no value.  The code instead fails both
scans with `MissingArgument`, because the `flags | CMDOPT_TAKESARG` tests
(bitwise OR instead of AND) make every option demand an argument.  This
theorem evaluates the scanner at the failing inputs. -/
theorem C1_roundTrip_code_behavior :
    (cmdapp_run (cmdapp_set (cmdapp_init [str ("prog"), str ("-v")] CMDAPP_MODE_SHORTARG)
        118 (some (str ("verbose"))) 0 [] [])).outcome =
      .failure (.missingArgument (str ("-v")))
    ∧ (cmdapp_run (cmdapp_set
        (cmdapp_init [str ("prog"), str ("--verbose")] CMDAPP_MODE_SHORTARG)
        118 (some (str ("verbose"))) 0 [] [])).outcome =
      .failure (.missingArgument (str ("--verbose"))) := by decide

/-- C2: the claim states that `argv[0]` is never classified and the
positional output equals the flag-free argument vector minus the program
name.  The code's scan loop starts at index 0, so the program name is
classified as a plain token and appended: scanning `["prog", "x"]` with an
empty registry yields positionals `["prog", "x"]`, not `["x"]`. -/
theorem C2_argv0_classified :
    cmdapp_run (cmdapp_init [str ("prog"), str ("x")] CMDAPP_MODE_SHORTARG) =
      ⟨[str ("prog"), str ("x")], [], [0, 1], .exitSuccess⟩
    ∧ argsStrings (cmdapp_run (cmdapp_init [str ("prog"), str ("x")] CMDAPP_MODE_SHORTARG)) =
      [str ("prog"), str ("x")] := by decide

/-- Run the scanner in clustered (`CMDAPP_MODE_SHORTARG`) mode over an
argument vector against a given registry. -/
def runWith (argv : List (List Nat)) (opts : List CmdargInternal) : RunRes :=
  cmdapp_run ⟨argv, CMDAPP_MODE_SHORTARG, opts⟩

/-- C3 counterexample: the claim states that a scan resets each option's
`seen`/`value` so registry reuse leaks no state.  Concretely, scanning
`["p1", "--out=f"]` marks `--out` seen with a bound value; a following
scan of `["p2"]` leaves that state in place, whereas the same scan against
a fresh registry leaves the option unseen — so the composite differs from
the fresh scan. -/
theorem C3_reuse_counterexample :
    (runWith [str ("p2")] (runWith [str ("p1"), str ("--out=f")] [outEntry]).opts).opts ≠
      (runWith [str ("p2")] [outEntry]).opts
    ∧ optSeenAt
        (runWith [str ("p2")] (runWith [str ("p1"), str ("--out=f")] [outEntry]).opts).opts
        0 = true
    ∧ optSeenAt (runWith [str ("p2")] [outEntry]).opts 0 = false := by decide

/-- C4 counterexample: the claim states that a failed scan returns no
partial result — no positional list and no partially updated option state
is observable.  Concretely, scanning `["prog", "--out=f", "--bogus", "b"]`
fails with `UnrecognizedOption` at `--bogus`, yet `cmdapp_getargs` still
returns the accumulated positional list `["prog"]` and the `--out` option
is left marked seen with its value bound. -/
theorem C4_partial_state_counterexample :
    (runWith [str ("prog"), str ("--out=f"), str ("--bogus"), str ("b")] [outEntry]).outcome =
      .failure (.unrecognizedOption (str ("--bogus")))
    ∧ cmdapp_getargs
        (runWith [str ("prog"), str ("--out=f"), str ("--bogus"), str ("b")] [outEntry]) =
      some [0]
    ∧ (runWith [str ("prog"), str ("--out=f"), str ("--bogus"), str ("b")] [outEntry]).args ≠ []
    ∧ optSeenAt
        (runWith [str ("prog"), str ("--out=f"), str ("--bogus"), str ("b")] [outEntry]).opts
        0 = true := by decide

/-- C6: the claim states that in clustered mode a same-token remainder
after an argument-taking short option is bound as its inline value, with
the next token consumed only otherwise.  The code never uses the
remainder: `["prog", "-oVALUE"]` fails with `MissingArgument`, and with a
following token `["prog", "-oVALUE", "next"]` the code binds `next`
(pointer `(2,0)`), not `VALUE`. -/
theorem C6_shortarg_inline_value_ignored :
    (runWith [str ("prog"), str ("-oVALUE")] [outEntry]).outcome =
      .failure (.missingArgument (str ("-o")))
    ∧ optValueAt (runWith [str ("prog"), str ("-oVALUE"), str ("next")] [outEntry]).opts 0 =
      some (2, 0)
    ∧ readValue (runWith [str ("prog"), str ("-oVALUE"), str ("next")] [outEntry]).argv
        (some (2, 0)) = some (str ("next"))
    ∧ (runWith [str ("prog"), str ("-oVALUE"), str ("next")] [outEntry]).outcome =
      .exitSuccess := by decide

/-- C8: the claim states that multi-flag mode resolves each character of a
cluster against the registry, marking each matched option seen.  The
cluster loop instead looks up `current[1]` on every iteration, never sets
`CMDOPT_EXISTS`, and consumes the following token once per iteration: on
cluster `-ab` (with boolean `a`, `b` registered and a following token
`x`), option `b` is never touched, `a` is never marked seen, and two
following tokens are consumed.  Moreover `cmdapp_run` in
`CMDAPP_MODE_MULTIFLAG` never even reaches the cluster loop, because the
dispatch `mode | CMDAPP_MODE_SHORTARG` is always nonzero. -/
theorem C8_multiflag_behavior :
    multiflagLoop (str ("-ab")).length (str ("-ab")) (some (str ("x"))) 1 [aEntry, bEntry] 1 0 =
      Sum.inl ([{ result := { shorto := 97, longo := none, flags := 0, value := some (2, 0) },
                  description := [], conflicts := [] }, bEntry], 2)
    ∧ optSeenAt [{ result := { shorto := 97, longo := none, flags := 0, value := some (2, 0) },
                   description := [], conflicts := [] }, bEntry] 0 = false
    ∧ (cmdapp_run ⟨[str ("prog"), str ("-ab")], CMDAPP_MODE_MULTIFLAG,
        [aEntry, bEntry]⟩).outcome = .failure (.missingArgument (str ("-a"))) := by
  decide

/-- C7 counterexample: the claim states that every token that is exactly
`--` is consumed as the end-of-options marker and never added to the
positional list.  Only the first one is: scanning `["prog", "--", "--"]`
appends the second `--` to the positionals. -/
theorem C7_second_marker_counterexample :
    cmdapp_run (cmdapp_init [str ("prog"), str ("--"), str ("--")] CMDAPP_MODE_SHORTARG) =
      ⟨[str ("prog"), str ("--"), str ("--")], [], [0, 2], .exitSuccess⟩
    ∧ (str ("--")) ∈ argsStrings
        (cmdapp_run (cmdapp_init [str ("prog"), str ("--"), str ("--")]
          CMDAPP_MODE_SHORTARG)) := by decide

/-! List and registry helper lemmas. -/

theorem listGet_of_lt {α : Type} : ∀ (l : List α) (k : Nat), k < l.length → ∃ a, l[k]? = some a
  | a :: _, 0, _ => ⟨a, by simp⟩
  | _ :: rest, k + 1, h => by
    obtain ⟨a, ha⟩ := listGet_of_lt rest k (by simpa using h)
    exact ⟨a, by simpa using ha⟩

theorem listGet_some_lt {α : Type} : ∀ (l : List α) (k : Nat) (a : α),
    l[k]? = some a → k < l.length
  | b :: _, 0, _, _ => by simp
  | _ :: rest, k + 1, a, h => by
    have := listGet_some_lt rest k a (by simpa using h)
    simpa using Nat.succ_lt_succ this
  | [], k, a, h => by simp at h

theorem listGet_set_self {α : Type} : ∀ (l : List α) (k : Nat) (v : α),
    k < l.length → (l.set k v)[k]? = some v
  | _ :: _, 0, _, _ => by simp
  | _ :: rest, k + 1, v, h => by
    simpa using listGet_set_self rest k v (by simpa using h)
  | [], k, v, h => by simp at h

theorem listGetD_set_self {α : Type} (l : List α) (k : Nat) (v d : α) (h : k < l.length) :
    (l.set k v).getD k d = v := by
  simp [List.getD, listGet_set_self l k v h]

theorem listDrop_set_of_lt {α : Type} : ∀ (l : List α) (k : Nat) (v : α) (n : Nat),
    k < n → (l.set k v).drop n = l.drop n
  | [], _, _, _, _ => by simp
  | a :: rest, 0, v, n + 1, _ => by simp
  | a :: rest, k + 1, v, n + 1, h => by
    simpa using listDrop_set_of_lt rest k v n (by omega)

theorem getElem?_updRes (f : Cmdopt → Cmdopt) :
    ∀ (l : List CmdargInternal) (n k : Nat),
      (updRes l n f)[k]? =
        if n = k then (l[k]?).map (fun a => { a with result := f a.result }) else l[k]?
  | [], n, k => by simp [updRes]
  | a :: rest, 0, 0 => by simp [updRes]
  | a :: rest, 0, k + 1 => by simp [updRes]
  | a :: rest, n + 1, 0 => by simp [updRes]
  | a :: rest, n + 1, k + 1 => by
    have ih := getElem?_updRes f rest n k
    by_cases hnk : n = k
    · subst hnk
      simp [updRes, ih]
    · simp [updRes, ih, hnk, fun h => hnk (Nat.succ_injective h)]

theorem cmdapp_search_long_lt : ∀ (opts : List CmdargInternal) (nm : List Nat) (idx : Nat),
    cmdapp_search_long opts nm = some idx → idx < opts.length
  | a :: rest, nm, idx, h => by
    by_cases hm : a.result.longo = some nm
    · simp [cmdapp_search_long, hm] at h
      simp [← h]
    · simp [cmdapp_search_long, hm] at h
      obtain ⟨j, hj, rfl⟩ := h
      have := cmdapp_search_long_lt rest nm j hj
      simpa using Nat.succ_lt_succ this
  | [], nm, idx, h => by simp [cmdapp_search_long] at h

theorem optValueAt_bindOpts (opts : List CmdargInternal) (idx : Nat) (p : Nat × Nat)
    (h : idx < opts.length) : optValueAt (bindOpts opts idx p) idx = some p := by
  obtain ⟨a, ha⟩ := listGet_of_lt opts idx h
  simp [optValueAt, bindOpts, getElem?_updRes, ha]

/-! Facts about `strchrIdx`. -/

theorem strchrAux_spec : ∀ (b : List Nat) (j k : Nat),
    strchrAux b j = some k → j ≤ k ∧ b[k - j]? = some eqByte
  | [], j, k, h => by simp [strchrAux] at h
  | c :: rest, j, k, h => by
    by_cases h0 : c = 0
    · simp [strchrAux, h0] at h
    · by_cases he : c = eqByte
      · simp [strchrAux, h0, he, eqByte] at h
        subst h
        exact ⟨Nat.le_refl _, by simp [he]⟩
      · simp [strchrAux, h0, he] at h
        obtain ⟨hle, hget⟩ := strchrAux_spec rest (j + 1) k h
        refine ⟨by omega, ?_⟩
        have hkj : k - j = (k - (j + 1)) + 1 := by omega
        rw [hkj]
        simpa using hget

theorem strchrIdx_spec (b : List Nat) (k : Nat) (h : strchrIdx b = some k) :
    b[k]? = some eqByte := by
  have := strchrAux_spec b 0 k h
  simpa using this.2

theorem set_zero_ne_of_eqByte (b : List Nat) (k : Nat) (h : b[k]? = some eqByte) :
    b.set k 0 ≠ b := by
  intro he
  have hl := listGet_some_lt b k eqByte h
  have h2 := listGet_set_self b k 0 hl
  rw [he, h] at h2
  simp [eqByte] at h2

/-! Token classification under hypotheses on the leading bytes. -/

theorem isEndOfFlags_false_of_ne {tok : List Nat} (h2 : cread tok 2 ≠ 0) :
    isEndOfFlags tok = false := by
  simp [isEndOfFlags, h2]

theorem isLongFlag_true_of {tok : List Nat} (h0 : cread tok 0 = dash)
    (h1 : cread tok 1 = dash) : isLongFlag tok = true := by
  simp [isLongFlag, h0, h1]

/-- Once `only_args` is on, the scanner appends every remaining token
verbatim (as indices `i, i+1, …, argc-1`), touches no option, and
succeeds. -/
theorem runFrom_onlyArgs (mode : Nat) :
    ∀ (fuel : Nat) (argv : List (List Nat)) (opts : List CmdargInternal)
      (args : List Nat) (i : Nat), argv.length - i ≤ fuel →
      runFrom mode fuel ⟨argv, opts, args, true, i⟩ =
        ⟨argv, opts, args ++ idxFrom i (argv.length - i), .exitSuccess⟩
  | 0, argv, opts, args, i, h => by
    have h0 : argv.length - i = 0 := by omega
    simp [runFrom, h0, idxFrom]
  | fuel + 1, argv, opts, args, i, h => by
    by_cases hlt : i < argv.length
    · have hstep : stepToken mode ⟨argv, opts, args, true, i⟩ =
          .cont ⟨argv, opts, args ++ [i], true, i + 1⟩ := by
        simp [stepToken]
      have ih := runFrom_onlyArgs mode fuel argv opts (args ++ [i]) (i + 1) (by omega)
      have h2 : argv.length - i = (argv.length - (i + 1)) + 1 := by omega
      simp [runFrom, hlt, hstep, ih, h2, idxFrom]
    · have h0 : argv.length - i = 0 := by omega
      simp [runFrom, hlt, h0, idxFrom]

/-- C7 (amended): the first `--` token reached with `only_args` off is
consumed as the end-of-options marker and is not appended; every token
after it — including later `--` tokens and tokens that look like flags —
is appended verbatim to the positional list, never resolved against the
registry, and the scan succeeds. -/
theorem C7_first_marker_then_verbatim (mode fuel : Nat) (argv : List (List Nat))
    (opts : List CmdargInternal) (args : List Nat) (i : Nat)
    (hi : i < argv.length) (hcur : argv.getD i [] = str ("--"))
    (hfuel : argv.length - i ≤ fuel) :
    runFrom mode (fuel + 1) ⟨argv, opts, args, false, i⟩ =
      ⟨argv, opts, args ++ idxFrom (i + 1) (argv.length - (i + 1)), .exitSuccess⟩ := by
  have hstep : stepToken mode ⟨argv, opts, args, false, i⟩ =
      .cont ⟨argv, opts, args, true, i + 1⟩ := by
    simp only [List.getD, List.get?_eq_getElem?] at hcur
    simp [stepToken, hcur, (by decide : isEndOfFlags (str ("--")) = true)]
  have ih := runFrom_onlyArgs mode fuel argv opts args (i + 1) (by omega)
  simp [runFrom, hi, hstep, ih]

/-- Witness for C7 at a concrete input: scanning from the marker in
`["--", "-x"]` consumes the marker and appends the flag-looking `-x`
verbatim. -/
theorem C7_first_marker_then_verbatim_witness :
    (0 : Nat) < ([str ("--"), str ("-x")] : List (List Nat)).length
    ∧ ([str ("--"), str ("-x")] : List (List Nat)).getD 0 [] = str ("--")
    ∧ ([str ("--"), str ("-x")] : List (List Nat)).length - 0 ≤ 2
    ∧ runFrom CMDAPP_MODE_SHORTARG 3 ⟨[str ("--"), str ("-x")], [], [], false, 0⟩ =
        ⟨[str ("--"), str ("-x")], [], [1], .exitSuccess⟩ :=
  ⟨by decide, by decide, by decide,
    C7_first_marker_then_verbatim CMDAPP_MODE_SHORTARG 2 [str ("--"), str ("-x")] [] [] 0
      (by decide) (by decide) (by decide)⟩

/-! Monotonicity of the seen flag: no code path of the scanner ever clears
`CMDOPT_EXISTS` on a registry entry. -/

/-- The registry carried by a step result. -/
def stepOpts : StepRes → List CmdargInternal
  | .cont st => st.opts
  | .halt r => r.opts

/-- The registry carried by a cluster-loop result. -/
def mfOpts : (List CmdargInternal × Nat) ⊕ (List CmdargInternal × ScanError) →
    List CmdargInternal
  | Sum.inl (o, _) => o
  | Sum.inr (o, _) => o

theorem seen_or_exists (o : Cmdopt) :
    (((o.flags ||| CMDOPT_EXISTS) &&& CMDOPT_EXISTS) != 0) = true := by
  simpa [bne_iff_ne] using or_exists_and_ne_zero o.flags

theorem optSeenAt_updRes_of (opts : List CmdargInternal) (n : Nat) (f : Cmdopt → Cmdopt)
    (hf : ∀ o : Cmdopt, (o.flags &&& CMDOPT_EXISTS != 0) = true →
      ((f o).flags &&& CMDOPT_EXISTS != 0) = true)
    (k : Nat) (h : optSeenAt opts k = true) : optSeenAt (updRes opts n f) k = true := by
  by_cases hnk : n = k
  · subst hnk
    cases hg : opts[n]? with
    | none => simp [optSeenAt, List.get?_eq_getElem?, hg] at h
    | some o =>
      have h2 : (o.result.flags &&& CMDOPT_EXISTS != 0) = true := by
        simpa [optSeenAt, List.get?_eq_getElem?, hg] using h
      simp [optSeenAt, List.get?_eq_getElem?, getElem?_updRes, hg, hf _ h2]
  · simpa [optSeenAt, List.get?_eq_getElem?, getElem?_updRes, hnk] using h

theorem optSeenAt_updValue_mono (opts : List CmdargInternal) (n : Nat)
    (v : Option (Nat × Nat)) (k : Nat) (h : optSeenAt opts k = true) :
    optSeenAt (updRes opts n (fun o => { o with value := v })) k = true :=
  optSeenAt_updRes_of opts n _ (fun _ h2 => by simpa using h2) k h

theorem optSeenAt_markExists_mono (opts : List CmdargInternal) (n k : Nat)
    (h : optSeenAt opts k = true) : optSeenAt (markExists opts n) k = true :=
  optSeenAt_updRes_of opts n _ (fun o _ => by simpa using seen_or_exists o) k h

theorem optSeenAt_bindOpts_mono (opts : List CmdargInternal) (n : Nat) (p : Nat × Nat)
    (k : Nat) (h : optSeenAt opts k = true) : optSeenAt (bindOpts opts n p) k = true :=
  optSeenAt_updRes_of _ n _ (fun o _ => by simpa using seen_or_exists o) k
    (optSeenAt_updValue_mono opts n (some p) k h)

theorem multiflagLoop_seen_mono :
    ∀ (fuelJ : Nat) (current : List Nat) (next : Option (List Nat)) (iTok : Nat)
      (opts : List CmdargInternal) (j extra k : Nat), optSeenAt opts k = true →
      optSeenAt (mfOpts (multiflagLoop fuelJ current next iTok opts j extra)) k = true
  | 0, _, _, _, _, _, _, _, h => by simpa [multiflagLoop, mfOpts] using h
  | f + 1, current, next, iTok, opts, j, extra, k, h => by
    simp only [multiflagLoop]
    by_cases h0 : cread current j = 0
    · simpa [h0, mfOpts] using h
    · simp only [h0, if_false, ite_false]
      cases hs : cmdapp_search_short opts (cread current 1) with
      | none => simpa [mfOpts] using h
      | some idx =>
        simp only []
        by_cases h4 : cread current 4 = 0
        · by_cases hn : nextNonFlag next = true
          · simp only [h4, hn, if_true, ite_true]
            exact multiflagLoop_seen_mono f current next iTok _ (j + 1) (extra + 1) k
              (optSeenAt_updValue_mono _ idx _ k (optSeenAt_updValue_mono opts idx _ k h))
          · simp only [h4, hn, if_true, ite_true, if_false, ite_false]
            simpa [mfOpts] using optSeenAt_updValue_mono opts idx _ k h
        · simp only [h4, if_false, ite_false]
          exact multiflagLoop_seen_mono f current next iTok _ (j + 1) extra k
            (optSeenAt_updValue_mono opts idx _ k h)

theorem handleLong2_seen_mono (st : ScanSt) (argp : Option (Nat × Nat)) (k : Nat)
    (h : optSeenAt st.opts k = true) :
    optSeenAt (stepOpts (handleLong2 st argp)) k = true := by
  simp only [handleLong2]
  cases hs : cmdapp_search_long st.opts (cstring (st.argv.getD st.i []) 2) with
  | none =>
    simp only [hs]
    split
    · simpa [stepOpts] using h
    · split
      · simpa [stepOpts] using h
      · simpa [stepOpts] using h
  | some idx =>
    simp only [hs, or_takesarg_ne_zero, if_true, ite_true, if_false, ite_false,
      ne_eq, not_false_eq_true]
    cases argp with
    | none => simpa [stepOpts, or_takesarg_ne_zero] using h
    | some p =>
      simpa [stepOpts, or_takesarg_ne_zero] using optSeenAt_bindOpts_mono st.opts idx p k h

theorem handleLong_seen_mono (st : ScanSt) (k : Nat) (h : optSeenAt st.opts k = true) :
    optSeenAt (stepOpts (handleLong st)) k = true := by
  simp only [handleLong]
  cases hs : strchrIdx (st.argv.getD st.i []) with
  | some j => exact handleLong2_seen_mono _ _ k h
  | none => exact handleLong2_seen_mono _ _ k h

theorem handleShortarg_seen_mono (st : ScanSt) (k : Nat) (h : optSeenAt st.opts k = true) :
    optSeenAt (stepOpts (handleShortarg st)) k = true := by
  simp only [handleShortarg]
  cases hs : cmdapp_search_short st.opts (cread (st.argv.getD st.i []) 1) with
  | none => simpa [stepOpts] using h
  | some idx =>
    simp only []
    split
    · split
      · simpa [stepOpts] using
          optSeenAt_bindOpts_mono _ idx _ k
            (optSeenAt_updValue_mono _ idx _ k (optSeenAt_updValue_mono st.opts idx none k h))
      · simpa [stepOpts] using
          optSeenAt_updValue_mono _ idx _ k (optSeenAt_updValue_mono st.opts idx none k h)
    · split
      · simpa [stepOpts] using optSeenAt_updValue_mono st.opts idx none k h
      · simpa [stepOpts] using
          optSeenAt_markExists_mono _ idx k (optSeenAt_updValue_mono st.opts idx none k h)

theorem handleMultiflag_seen_mono (st : ScanSt) (k : Nat) (h : optSeenAt st.opts k = true) :
    optSeenAt (stepOpts (handleMultiflag st)) k = true := by
  simp only [handleMultiflag]
  have h2 := multiflagLoop_seen_mono (st.argv.getD st.i []).length (st.argv.getD st.i [])
    (st.argv[st.i + 1]?) st.i st.opts 1 0 k h
  cases hm : multiflagLoop (st.argv.getD st.i []).length (st.argv.getD st.i [])
      (st.argv[st.i + 1]?) st.i st.opts 1 0 with
  | inl pr => rw [hm] at h2; simpa [stepOpts, mfOpts] using h2
  | inr pr => rw [hm] at h2; simpa [stepOpts, mfOpts] using h2

theorem stepToken_seen_mono (mode : Nat) (st : ScanSt) (k : Nat)
    (h : optSeenAt st.opts k = true) : optSeenAt (stepOpts (stepToken mode st)) k = true := by
  simp only [stepToken]
  split
  · simpa [stepOpts] using h
  · split
    · simpa [stepOpts] using h
    · split
      · exact handleLong_seen_mono st k h
      · split
        · split
          · exact handleShortarg_seen_mono st k h
          · exact handleMultiflag_seen_mono st k h
        · simpa [stepOpts] using h

theorem runFrom_seen_mono (mode : Nat) :
    ∀ (fuel : Nat) (st : ScanSt) (k : Nat), optSeenAt st.opts k = true →
      optSeenAt (runFrom mode fuel st).opts k = true
  | 0, st, k, h => by simpa [runFrom] using h
  | fuel + 1, st, k, h => by
    simp only [runFrom]
    by_cases hlt : st.i < st.argv.length
    · simp only [hlt, if_true, ite_true]
      have h2 := stepToken_seen_mono mode st k h
      cases hstep : stepToken mode st with
      | cont st2 =>
        rw [hstep] at h2
        exact runFrom_seen_mono mode fuel st2 k (by simpa [stepOpts] using h2)
      | halt r =>
        rw [hstep] at h2
        simpa [stepOpts] using h2
    · simpa [hlt] using h

/-- C3 (amended): a scan resets only the positional list at its start; it
never clears an option's `CMDOPT_EXISTS` (seen) flag, so any option
already marked seen before a scan is still marked seen afterwards — state
leaks from one scan into the next instead of being reset (the
counterexample exhibits the leak concretely). -/
theorem C3_seen_persists (app : AppSt) (k : Nat) (h : optSeenAt app.opts k = true) :
    optSeenAt (cmdapp_run app).opts k = true :=
  runFrom_seen_mono app.mode (app.argv.length + 1) ⟨app.argv, app.opts, [], false, 0⟩ k h

/-- Registry entry already marked seen, for the C3 witness. -/
def seenEntry : CmdargInternal :=
  { result := { shorto := 115, longo := some (str ("seen")), flags := CMDOPT_EXISTS,
                value := none },
    description := [], conflicts := [] }

/-- Witness for C3 (amended) at a concrete input. -/
theorem C3_seen_persists_witness :
    optSeenAt [seenEntry] 0 = true
    ∧ optSeenAt (cmdapp_run ⟨[str ("p")], CMDAPP_MODE_SHORTARG, [seenEntry]⟩).opts 0 = true :=
  ⟨by decide, C3_seen_persists ⟨[str ("p")], CMDAPP_MODE_SHORTARG, [seenEntry]⟩ 0 (by decide)⟩

/-- C4 (amended): the scan aborts at the first token that classifies as an
error — once `stepToken` halts, the halt is the entire scan result, so no
later token is processed and cannot affect it — but the result is not
atomic: the positional list accumulated before the error stays in the app
and `cmdapp_getargs` still returns it (the counterexample shows it
nonempty, with option state also partially updated). -/
theorem C4_first_error_aborts (mode fuel : Nat) (st : ScanSt) (r : RunRes)
    (hi : st.i < st.argv.length) (hstep : stepToken mode st = .halt r) :
    runFrom mode (fuel + 1) st = r ∧ cmdapp_getargs r = some r.args := by
  constructor
  · simp [runFrom, hi, hstep]
  · rfl

/-- Witness for C4 (amended) at a concrete input: the unrecognized
`--bogus` halts the scan immediately with the accumulated positional list
still readable. -/
theorem C4_first_error_aborts_witness :
    (0 : Nat) < ([str ("--bogus"), str ("b")] : List (List Nat)).length
    ∧ stepToken CMDAPP_MODE_SHORTARG ⟨[str ("--bogus"), str ("b")], [], [7], false, 0⟩ =
        .halt ⟨[str ("--bogus"), str ("b")], [], [7],
          .failure (.unrecognizedOption (str ("--bogus")))⟩
    ∧ (runFrom CMDAPP_MODE_SHORTARG 5 ⟨[str ("--bogus"), str ("b")], [], [7], false, 0⟩ =
        ⟨[str ("--bogus"), str ("b")], [], [7], .failure (.unrecognizedOption (str ("--bogus")))⟩
      ∧ cmdapp_getargs ⟨[str ("--bogus"), str ("b")], [], [7],
          .failure (.unrecognizedOption (str ("--bogus")))⟩ = some [7]) :=
  ⟨by decide, by decide,
    C4_first_error_aborts CMDAPP_MODE_SHORTARG 4 ⟨[str ("--bogus"), str ("b")], [], [7], false, 0⟩
      ⟨[str ("--bogus"), str ("b")], [], [7], .failure (.unrecognizedOption (str ("--bogus")))⟩
      (by decide) (by decide)⟩

/-- C9: a token that is exactly `--help` (resp. `--version`) with no
option registered under long name `help` (resp. `version`) triggers the
corresponding renderer and terminates the scan successfully at once, with
no further token processed and no state touched; when such an option is
registered, the token is resolved against the registry instead and the
renderer is not triggered. -/
theorem C9_help_version_shortcircuit (mode f : Nat) (argv : List (List Nat))
    (opts : List CmdargInternal) (args : List Nat) (i : Nat) (hi : i < argv.length) :
    (argv.getD i [] = str ("--help") → cmdapp_search_long opts (str ("help")) = none →
      runFrom mode (f + 1) ⟨argv, opts, args, false, i⟩ = ⟨argv, opts, args, .helpShortCircuit⟩)
    ∧ (argv.getD i [] = str ("--version") → cmdapp_search_long opts (str ("version")) = none →
      runFrom mode (f + 1) ⟨argv, opts, args, false, i⟩ =
        ⟨argv, opts, args, .versionShortCircuit⟩)
    ∧ (∀ idx, argv.getD i [] = str ("--help") →
      cmdapp_search_long opts (str ("help")) = some idx →
      (runFrom mode (f + 1) ⟨argv, opts, args, false, i⟩).outcome ≠ .helpShortCircuit)
    ∧ (∀ idx, argv.getD i [] = str ("--version") →
      cmdapp_search_long opts (str ("version")) = some idx →
      (runFrom mode (f + 1) ⟨argv, opts, args, false, i⟩).outcome ≠ .versionShortCircuit) := by
  refine ⟨?_, ?_, ?_, ?_⟩
  · intro hcur hno
    simp only [List.getD, List.get?_eq_getElem?] at hcur
    have hstep : stepToken mode ⟨argv, opts, args, false, i⟩ =
        .halt ⟨argv, opts, args, .helpShortCircuit⟩ := by
      simp [stepToken, hcur, handleLong, handleLong2, hno,
        (by decide : isEndOfFlags (str ("--help")) = false),
        (by decide : isLongFlag (str ("--help")) = true),
        (by decide : strchrIdx (str ("--help")) = none),
        (by decide : cstring (str ("--help")) 2 = str ("help")),
        (by decide : cstring (str ("--help")) 0 = str ("--help"))]
    simp [runFrom, hi, hstep]
  · intro hcur hno
    simp only [List.getD, List.get?_eq_getElem?] at hcur
    have hstep : stepToken mode ⟨argv, opts, args, false, i⟩ =
        .halt ⟨argv, opts, args, .versionShortCircuit⟩ := by
      simp [stepToken, hcur, handleLong, handleLong2, hno,
        (by decide : isEndOfFlags (str ("--version")) = false),
        (by decide : isLongFlag (str ("--version")) = true),
        (by decide : strchrIdx (str ("--version")) = none),
        (by decide : cstring (str ("--version")) 2 = str ("version")),
        (by decide : cstring (str ("--version")) 0 = str ("--version")),
        (by decide : ¬ str ("--version") = str ("--help")),
        (by decide : cstring (str ("--version")) 0 ≠ str ("--help"))]
    simp [runFrom, hi, hstep]
  · intro idx hcur hsome
    simp only [List.getD, List.get?_eq_getElem?] at hcur
    have hstep : stepToken mode ⟨argv, opts, args, false, i⟩ =
        .halt ⟨argv, opts, args, .failure (.missingArgument (str ("--help")))⟩ := by
      simp [stepToken, hcur, handleLong, handleLong2, hsome, or_takesarg_ne_zero,
        (by decide : isEndOfFlags (str ("--help")) = false),
        (by decide : isLongFlag (str ("--help")) = true),
        (by decide : strchrIdx (str ("--help")) = none),
        (by decide : cstring (str ("--help")) 2 = str ("help")),
        (by decide : cstring (str ("--help")) 0 = str ("--help"))]
    simp [runFrom, hi, hstep]
  · intro idx hcur hsome
    simp only [List.getD, List.get?_eq_getElem?] at hcur
    have hstep : stepToken mode ⟨argv, opts, args, false, i⟩ =
        .halt ⟨argv, opts, args, .failure (.missingArgument (str ("--version")))⟩ := by
      simp [stepToken, hcur, handleLong, handleLong2, hsome, or_takesarg_ne_zero,
        (by decide : isEndOfFlags (str ("--version")) = false),
        (by decide : isLongFlag (str ("--version")) = true),
        (by decide : strchrIdx (str ("--version")) = none),
        (by decide : cstring (str ("--version")) 2 = str ("version")),
        (by decide : cstring (str ("--version")) 0 = str ("--version"))]
    simp [runFrom, hi, hstep]

/-- Registry entry shadowing `--help` under long name `help`, for the C9
witness. -/
def helpEntry : CmdargInternal :=
  { result := { shorto := 104, longo := some (str ("help")), flags := 0, value := none },
    description := [], conflicts := [] }

/-- Witness for C9 at concrete inputs: an unshadowed `--help` triggers the
help short-circuit; a registered `help` option suppresses it. -/
theorem C9_help_version_shortcircuit_witness :
    (0 : Nat) < ([str ("--help")] : List (List Nat)).length
    ∧ ([str ("--help")] : List (List Nat)).getD 0 [] = str ("--help")
    ∧ cmdapp_search_long [] (str ("help")) = none
    ∧ runFrom CMDAPP_MODE_SHORTARG 1 ⟨[str ("--help")], [], [], false, 0⟩ =
        ⟨[str ("--help")], [], [], .helpShortCircuit⟩
    ∧ cmdapp_search_long [helpEntry] (str ("help")) = some 0
    ∧ (runFrom CMDAPP_MODE_SHORTARG 1 ⟨[str ("--help")], [helpEntry], [], false, 0⟩).outcome ≠
        .helpShortCircuit :=
  ⟨by decide, by decide, by decide,
    (C9_help_version_shortcircuit CMDAPP_MODE_SHORTARG 0 [str ("--help")] [] [] 0
      (by decide)).1 (by decide) (by decide),
    by decide,
    (C9_help_version_shortcircuit CMDAPP_MODE_SHORTARG 0 [str ("--help")] [helpEntry] [] 0
      (by decide)).2.2.1 0 (by decide) (by decide)⟩

/-- C5: for a registered argument-taking long option reached by the scan,
the token fails with `MissingArgument` exactly when it carries no inline
`=` value; when the `=` is present the scan binds exactly the bytes after
the first `=` to the option and succeeds on that token (here stated with
the long token as the final argv entry, as in the spec's example). -/
theorem C5_long_option_inline_argument (mode f : Nat) (argv : List (List Nat))
    (opts : List CmdargInternal) (args : List Nat) (i : Nat) (tok : List Nat) (idx : Nat)
    (hi : i < argv.length) (hcur : argv.getD i [] = tok)
    (h0 : cread tok 0 = dash) (h1 : cread tok 1 = dash) (h2 : cread tok 2 ≠ 0)
    (htakes : (getOpt opts idx).flags &&& CMDOPT_TAKESARG ≠ 0) :
    (strchrIdx tok = none → cmdapp_search_long opts (cstring tok 2) = some idx →
      runFrom mode (f + 1) ⟨argv, opts, args, false, i⟩ =
        ⟨argv, opts, args, .failure (.missingArgument (cstring tok 0))⟩)
    ∧ (∀ k, strchrIdx tok = some k →
        cmdapp_search_long opts (cstring (tok.set k 0) 2) = some idx →
        i + 1 = argv.length →
        runFrom mode (f + 1) ⟨argv, opts, args, false, i⟩ =
          ⟨argv.set i (tok.set k 0), bindOpts opts idx (i, k + 1), args, .exitSuccess⟩
        ∧ optValueAt (bindOpts opts idx (i, k + 1)) idx = some (i, k + 1)
        ∧ readValue (argv.set i (tok.set k 0)) (some (i, k + 1)) =
            some (cstring tok (k + 1))) := by
  constructor
  · intro hnone hsearch
    simp only [List.getD, List.get?_eq_getElem?] at hcur
    have hstep : stepToken mode ⟨argv, opts, args, false, i⟩ =
        .halt ⟨argv, opts, args, .failure (.missingArgument (cstring tok 0))⟩ := by
      simp [stepToken, hcur, handleLong, handleLong2, hnone, hsearch, or_takesarg_ne_zero,
        isEndOfFlags_false_of_ne h2, isLongFlag_true_of h0 h1]
    simp [runFrom, hi, hstep]
  · intro k hk hsearch hlast
    simp only [List.getD, List.get?_eq_getElem?] at hcur
    have hget : (argv.set i (tok.set k 0))[i]? = some (tok.set k 0) :=
      listGet_set_self argv i (tok.set k 0) hi
    have hstep : stepToken mode ⟨argv, opts, args, false, i⟩ =
        .cont ⟨argv.set i (tok.set k 0), bindOpts opts idx (i, k + 1), args, false, i + 1⟩ := by
      simp [stepToken, hcur, handleLong, handleLong2, hk, hget, hsearch, or_takesarg_ne_zero,
        isEndOfFlags_false_of_ne h2, isLongFlag_true_of h0 h1]
    have hstop : ¬ (i + 1 < argv.length) := by omega
    refine ⟨?_, ?_, ?_⟩
    · cases f with
      | zero => simp [runFrom, hi, hstep]
      | succ f2 => simp [runFrom, hi, hstep, List.length_set, hstop]
    · exact optValueAt_bindOpts opts idx (i, k + 1) (cmdapp_search_long_lt _ _ _ hsearch)
    · simp [readValue, hget, cstring, listDrop_set_of_lt tok k 0 (k + 1) (by omega)]

/-- Witness for C5 at the spec's concrete inputs: `--out` alone fails with
`MissingArgument`; `--out=f` binds the byte after the `=` and succeeds. -/
theorem C5_long_option_inline_argument_witness :
    ((0 : Nat) < ([str ("--out")] : List (List Nat)).length
      ∧ (getOpt [outEntry] 0).flags &&& CMDOPT_TAKESARG ≠ 0
      ∧ runFrom CMDAPP_MODE_SHORTARG 1 ⟨[str ("--out")], [outEntry], [], false, 0⟩ =
          ⟨[str ("--out")], [outEntry], [],
            .failure (.missingArgument (cstring (str ("--out")) 0))⟩)
    ∧ (runFrom CMDAPP_MODE_SHORTARG 1 ⟨[str ("--out=f")], [outEntry], [], false, 0⟩ =
          ⟨[(str ("--out=f")).set 5 0], bindOpts [outEntry] 0 (0, 6), [], .exitSuccess⟩
        ∧ optValueAt (bindOpts [outEntry] 0 (0, 6)) 0 = some (0, 6)
        ∧ readValue ([str ("--out=f")].set 0 ((str ("--out=f")).set 5 0)) (some (0, 6)) =
            some (cstring (str ("--out=f")) 6)) :=
  ⟨⟨by decide, by decide,
      (C5_long_option_inline_argument CMDAPP_MODE_SHORTARG 0 [str ("--out")] [outEntry] [] 0
        (str ("--out")) 0 (by decide) (by decide) (by decide) (by decide) (by decide)
        (by decide)).1 (by decide) (by decide)⟩,
    by
      have h := (C5_long_option_inline_argument CMDAPP_MODE_SHORTARG 0 [str ("--out=f")]
        [outEntry] [] 0 (str ("--out=f")) 0 (by decide) (by decide) (by decide) (by decide)
        (by decide) (by decide)).2 5 (by decide) (by decide) (by decide)
      exact ⟨h.1, h.2.1, h.2.2⟩⟩

/-- C10: processing a long-option token containing `=` mutates the
caller's argument vector in place — the byte at the first `=` is
overwritten with a NUL, so the stored token is no longer the original
string — and the bound value is not a copy but the pointer `(i, k+1)`
aliasing the remainder of that same argv buffer, through which the text
after the `=` is read. -/
theorem C10_argv_mutated_value_aliases (mode f : Nat) (argv : List (List Nat))
    (opts : List CmdargInternal) (args : List Nat) (i : Nat) (tok : List Nat) (k idx : Nat)
    (hi : i < argv.length) (hcur : argv.getD i [] = tok)
    (h0 : cread tok 0 = dash) (h1 : cread tok 1 = dash) (h2 : cread tok 2 ≠ 0)
    (hk : strchrIdx tok = some k)
    (hsearch : cmdapp_search_long opts (cstring (tok.set k 0) 2) = some idx) :
    runFrom mode (f + 1) ⟨argv, opts, args, false, i⟩ =
      runFrom mode f ⟨argv.set i (tok.set k 0), bindOpts opts idx (i, k + 1), args, false, i + 1⟩
    ∧ (argv.set i (tok.set k 0)).getD i [] = tok.set k 0
    ∧ tok.set k 0 ≠ tok
    ∧ optValueAt (bindOpts opts idx (i, k + 1)) idx = some (i, k + 1)
    ∧ readValue (argv.set i (tok.set k 0)) (some (i, k + 1)) = some (cstring tok (k + 1)) := by
  simp only [List.getD, List.get?_eq_getElem?] at hcur
  have hget : (argv.set i (tok.set k 0))[i]? = some (tok.set k 0) :=
    listGet_set_self argv i (tok.set k 0) hi
  have hstep : stepToken mode ⟨argv, opts, args, false, i⟩ =
      .cont ⟨argv.set i (tok.set k 0), bindOpts opts idx (i, k + 1), args, false, i + 1⟩ := by
    simp [stepToken, hcur, handleLong, handleLong2, hk, hget, hsearch, or_takesarg_ne_zero,
      isEndOfFlags_false_of_ne h2, isLongFlag_true_of h0 h1]
  refine ⟨by simp [runFrom, hi, hstep], ?_, ?_, ?_, ?_⟩
  · simp [List.getD, hget]
  · exact set_zero_ne_of_eqByte tok k (strchrIdx_spec tok k hk)
  · exact optValueAt_bindOpts opts idx (i, k + 1) (cmdapp_search_long_lt _ _ _ hsearch)
  · simp [readValue, hget, cstring, listDrop_set_of_lt tok k 0 (k + 1) (by omega)]

/-- Witness for C10 at the spec's concrete input `--out=file.txt`: the
`=` at index 5 is overwritten in argv and the option's value pointer
`(0, 6)` reads `file.txt` out of the mutated buffer. -/
theorem C10_argv_mutated_value_aliases_witness :
    (0 : Nat) < ([str ("--out=file.txt")] : List (List Nat)).length
    ∧ strchrIdx (str ("--out=file.txt")) = some 5
    ∧ (runFrom CMDAPP_MODE_SHORTARG 2 ⟨[str ("--out=file.txt")], [outEntry], [], false, 0⟩ =
        runFrom CMDAPP_MODE_SHORTARG 1
          ⟨[(str ("--out=file.txt")).set 5 0], bindOpts [outEntry] 0 (0, 6), [], false, 1⟩
      ∧ ([str ("--out=file.txt")].set 0 ((str ("--out=file.txt")).set 5 0)).getD 0 [] =
          (str ("--out=file.txt")).set 5 0
      ∧ (str ("--out=file.txt")).set 5 0 ≠ str ("--out=file.txt")
      ∧ optValueAt (bindOpts [outEntry] 0 (0, 6)) 0 = some (0, 6)
      ∧ readValue ([str ("--out=file.txt")].set 0 ((str ("--out=file.txt")).set 5 0))
          (some (0, 6)) = some (cstring (str ("--out=file.txt")) 6)) :=
  ⟨by decide, by decide,
    by
      have h := C10_argv_mutated_value_aliases CMDAPP_MODE_SHORTARG 1 [str ("--out=file.txt")]
        [outEntry] [] 0 (str ("--out=file.txt")) 5 0 (by decide) (by decide) (by decide)
        (by decide) (by decide) (by decide) (by decide)
      exact ⟨by simpa using h.1, h.2.1, h.2.2.1, h.2.2.2.1, h.2.2.2.2⟩⟩

end Cmdapp
